import Mathlib

/-
Shallow embedding of the multi-provider chess-engine client
(src/services/engineService.ts) of the aichess repository.

JavaScript strings are modelled as Lean `String` (lists of characters);
JavaScript numbers are modelled as `ℚ` (exact rationals) with
`Math.round` modelled as `⌊q + 1/2⌋` (round half toward +∞, the
ECMAScript behaviour); the per-provider HTTP exchange is modelled by an
explicit environment value describing the latency and the body of the
provider's answer, so that every adapter is a pure function of its
environment.
-/

namespace EngineService

/-! ## JavaScript string primitives -/

/-- ASCII digit test, as used by `parseInt` / `parseFloat` (JS accepts
exactly the characters 0-9 in the significand). -/
def jsIsDigit (c : Char) : Bool := 48 ≤ c.toNat && c.toNat ≤ 57

/-- The whitespace characters stripped by `String.prototype.trim` and
skipped by the numeric parsers (ASCII part of the WhiteSpace/LineTerminator
productions). -/
def jsIsWhitespace (c : Char) : Bool :=
  c == ' ' || c == '\t' || c == '\n' || c == '\r' || c == '\x0b' || c == '\x0c'

/-- `String.prototype.toLowerCase` (ASCII model). -/
def jsToLower (s : String) : String := ⟨s.data.map Char.toLower⟩

/-- `String.prototype.trim`: remove whitespace from both ends. -/
def jsTrim (s : String) : String :=
  ⟨((s.data.dropWhile jsIsWhitespace).reverse.dropWhile jsIsWhitespace).reverse⟩

/-- Substring search on character lists (`String.prototype.includes`). -/
def containsSub : List Char → List Char → Bool
  | [], pat => pat.isEmpty
  | l@(_ :: tl), pat => pat.isPrefixOf l || containsSub tl pat

/-- `String.prototype.includes`. -/
def jsIncludes (s pat : String) : Bool := containsSub s.data pat.data

/-- Replace the first occurrence of `pat` (non-empty) by `rep`;
`String.prototype.replace` with a string pattern replaces only the
first occurrence. -/
def replaceFirstAux (pat rep : List Char) : List Char → List Char
  | [] => []
  | l@(c :: tl) =>
    if pat.isPrefixOf l then rep ++ l.drop pat.length
    else c :: replaceFirstAux pat rep tl

/-- `String.prototype.replace` with a plain-string pattern. -/
def jsReplaceFirst (s pat rep : String) : String :=
  ⟨replaceFirstAux pat.data rep.data s.data⟩

/-- `String.prototype.split` with a single-character separator. -/
def jsSplitChar (sep : Char) : List Char → List (List Char)
  | [] => [[]]
  | c :: tl =>
    if c = sep then [] :: jsSplitChar sep tl
    else
      match jsSplitChar sep tl with
      | [] => [[c]]
      | h :: t => (c :: h) :: t

/-! ## JavaScript numeric parsing -/

/-- Value of a list of decimal digit characters (most significant first). -/
def digitsToNat (ds : List Char) : ℕ := ds.foldl (fun a c => 10 * a + (c.toNat - 48)) 0

/-- Longest leading run of decimal digits, `none` when there is none
(`parseInt` returns `NaN` then). -/
def parseIntCore (cs : List Char) : Option ℤ :=
  let ds := cs.takeWhile jsIsDigit
  if ds.isEmpty then none else some (digitsToNat ds : ℤ)

/-- `parseInt(s, 10)`: skip leading whitespace, optional sign, then the
longest run of decimal digits; `none` models `NaN`. -/
def jsParseInt (s : String) : Option ℤ :=
  match s.data.dropWhile jsIsWhitespace with
  | [] => none
  | c :: rest =>
    if c = '-' then (parseIntCore rest).map (fun n => -n)
    else if c = '+' then parseIntCore rest
    else parseIntCore (c :: rest)

/-- Exponent suffix of a `parseFloat` literal: an optional sign followed
by at least one digit; an `e` not followed by digits contributes nothing. -/
def parseFloatExp (cs : List Char) : ℤ :=
  match cs with
  | [] => 0
  | c :: rest =>
    if c = '-' then
      match (rest.takeWhile jsIsDigit).isEmpty with
      | true => 0
      | false => -(digitsToNat (rest.takeWhile jsIsDigit) : ℤ)
    else if c = '+' then
      match (rest.takeWhile jsIsDigit).isEmpty with
      | true => 0
      | false => (digitsToNat (rest.takeWhile jsIsDigit) : ℤ)
    else
      match (cs.takeWhile jsIsDigit).isEmpty with
      | true => 0
      | false => (digitsToNat (cs.takeWhile jsIsDigit) : ℤ)

/-- Magnitude part of a `parseFloat` literal: digits, optional decimal
point with digits, optional exponent. `none` models `NaN` (no digit at
all in the significand). -/
def parseFloatMag (cs : List Char) : Option ℚ :=
  let intDs := cs.takeWhile jsIsDigit
  let rest1 := cs.dropWhile jsIsDigit
  let fracDs :=
    match rest1 with
    | '.' :: tl => tl.takeWhile jsIsDigit
    | _ => []
  let rest2 :=
    match rest1 with
    | '.' :: tl => tl.dropWhile jsIsDigit
    | _ => rest1
  if intDs.isEmpty && fracDs.isEmpty then none
  else
    let mant : ℚ := (digitsToNat intDs : ℚ) + (digitsToNat fracDs : ℚ) / (10 : ℚ) ^ fracDs.length
    let e : ℤ :=
      match rest2 with
      | 'e' :: tl => parseFloatExp tl
      | 'E' :: tl => parseFloatExp tl
      | _ => 0
    some (mant * (10 : ℚ) ^ e)

/-- `parseFloat(s)`: skip leading whitespace, optional sign, then the
longest valid decimal literal prefix; `none` models `NaN`.
(The `Infinity` literal, not representable in `ℚ`, is out of this model;
no provider emits it.) -/
def jsParseFloat (s : String) : Option ℚ :=
  match s.data.dropWhile jsIsWhitespace with
  | [] => none
  | c :: rest =>
    if c = '-' then (parseFloatMag rest).map Neg.neg
    else if c = '+' then parseFloatMag rest
    else parseFloatMag (c :: rest)

/-- `Math.round`: round half toward positive infinity. -/
def jsRound (q : ℚ) : ℤ := ⌊q + 1 / 2⌋

/-! ## Canonical data model (src/types.ts) -/

inductive ScoreType
  | cp
  | mate
deriving DecidableEq

/-- `EngineEvaluation` of src/types.ts: `{ type: 'cp' | 'mate', value: number }`. -/
structure EngineEvaluation where
  type : ScoreType
  value : ℚ
deriving DecidableEq

/-- `EngineLine` of src/types.ts. -/
structure EngineLine where
  id : ℚ
  move : String
  evaluation : EngineEvaluation
deriving DecidableEq

/-- `EngineResponse` of src/types.ts (the fields this core constructs). -/
structure EngineResponse where
  best_move : String
  evaluation : EngineEvaluation
  depth : Option ℚ
  top_lines : List EngineLine
  continuation : Option (List String) := none
deriving DecidableEq

/-! ## Score normalization (`parseScoreStandard`) -/

/-- The dynamically-typed `score` argument of `parseScoreStandard`:
a string, a number, or anything else. -/
inductive ScoreInput
  | str (s : String)
  | num (q : ℚ)
  | other
deriving DecidableEq

/-- `parseScoreStandard` of src/services/engineService.ts, lines 207-223. -/
def parseScoreStandard : ScoreInput → EngineEvaluation
  | .str s =>
    let lower := jsToLower s
    if jsIncludes lower "mate" then
      match jsParseInt (jsTrim (jsReplaceFirst lower "mate" "")) with
      | some v => { type := .mate, value := (v : ℚ) }
      | none => { type := .mate, value := 0 }
    else if jsIncludes lower "cp" then
      match jsParseFloat (jsTrim (jsReplaceFirst lower "cp" "")) with
      | some v => { type := .cp, value := v }
      | none => { type := .cp, value := 0 }
    else
      match jsParseFloat s with
      | some v => { type := .cp, value := v }
      | none => { type := .cp, value := 0 }
  | .num q => { type := .cp, value := q }
  | .other => { type := .cp, value := 0 }

/-! ## Move sanitization (`cleanMove`) -/

/-- `cleanMove` of src/services/engineService.ts, lines 198-205. -/
def cleanMove (rawMove : String) : String :=
  if rawMove = "" then ""
  else
    let clean := jsTrim rawMove
    let clean :=
      if "bestmove ".data.isPrefixOf clean.data then
        jsTrim (jsReplaceFirst clean "bestmove " "")
      else clean
    ⟨(jsSplitChar ' ' clean.data).headD []⟩

/-- Reference sanitizer written from the specification text of §4.2:
trim surrounding whitespace, strip a leading `bestmove ` label, return
the first whitespace-delimited token. -/
def specCleanMoveWhitespaceTok (s : String) : String :=
  let t := jsTrim s
  let t :=
    if "bestmove ".data.isPrefixOf t.data then jsTrim ⟨t.data.drop 9⟩ else t
  ⟨t.data.takeWhile (fun c => !(jsIsWhitespace c))⟩

/-- Reference sanitizer with the delimiter the code actually uses: the
space character only (`split(' ')`), not the full whitespace class. -/
def specCleanMoveSpaceTok (s : String) : String :=
  let t := jsTrim s
  let t :=
    if "bestmove ".data.isPrefixOf t.data then jsTrim ⟨t.data.drop 9⟩ else t
  ⟨t.data.takeWhile (fun c => c ≠ ' ')⟩

/-! ## Network model

Each `fetch` is modelled by an environment value: how long the provider
takes to answer (`latencyMs`) and what the settled exchange produces —
a rejected promise, or a response with its `ok` flag, status code and
JSON body (`none` models a body `response.json()` fails to parse). -/

inductive NetBody (α : Type)
  | failed
  | response (ok : Bool) (status : ℕ) (json : Option α)
deriving DecidableEq

structure ReqEnv (α : Type) where
  latencyMs : ℕ
  body : NetBody α
deriving DecidableEq

/-- The ways one provider attempt can fail (all of them are thrown and
caught by the orchestrator, never shown to the caller). -/
inductive ProviderError
  | aborted
  | network
  | jsonError
  | httpError (status : ℕ)
  | badFormat (msg : String)
deriving DecidableEq

def resolveBody {α : Type} : NetBody α → Except ProviderError (Bool × ℕ × Option α)
  | .failed => .error .network
  | .response ok status json => .ok (ok, status, json)

/-- Outcome of `await fetch(...)` under an optional `AbortController`
armed with `setTimeout(..., t)`: when the provider's answer takes longer
than the budget, the in-flight request is aborted and the attempt fails;
with no controller the code simply waits for the answer. -/
def resolveRequest {α : Type} (timeoutMs : Option ℕ) (env : ReqEnv α) :
    Except ProviderError (Bool × ℕ × Option α) :=
  match timeoutMs with
  | some t => if t < env.latencyMs then .error .aborted else resolveBody env.body
  | none => resolveBody env.body

/-- One provider attempt, together with the observable parameters of the
request it issued: the depth written into the request and the abort
budget armed before it. -/
structure AdapterRun where
  sentDepth : ℤ
  timeoutMs : Option ℕ
  result : Except ProviderError EngineResponse

/-! ## Primary adapter: custom server (`fetchCustomAPI`) -/

/-- One element of the custom server's `variations` array. -/
structure Variation where
  rank : ℚ
  move : String
  score_type : Option String
  score : ℚ
deriving DecidableEq

/-- Body of a custom-server response. `variations = none` models a
missing field or a non-array value; `best_move = ""` models a falsy
(absent or empty) `best_move` field. -/
structure CustomData where
  variations : Option (List Variation)
  best_move : String
  depth : Option ℚ
deriving DecidableEq

/-- The `data.variations.map` callback of `fetchCustomAPI`
(src/services/engineService.ts, lines 64-82): the custom server reports
pawns, converted here to centipawns by `Math.round(v.score * 100)`. -/
def customLineOfVariation (v : Variation) : EngineLine :=
  if v.score_type = some "mate" then
    { id := v.rank, move := v.move, evaluation := { type := .mate, value := v.score } }
  else
    { id := v.rank, move := v.move,
      evaluation := { type := .cp, value := (jsRound (v.score * 100) : ℚ) } }

/-- `fetchCustomAPI` (src/services/engineService.ts, lines 39-97):
POST with the caller's depth as-is, `AbortController` armed at 8000 ms. -/
def fetchCustomAPI (fen : String) (depth : ℤ) (multipv : ℕ)
    (env : ReqEnv CustomData) : AdapterRun :=
  { sentDepth := depth
    timeoutMs := some 8000
    result :=
      match resolveRequest (some 8000) env with
      | .error e => .error e
      | .ok (ok, status, json) =>
        if ok = false then .error (.httpError status)
        else
          match json with
          | none => .error .jsonError
          | some data =>
            match data.variations with
            | none => .error (.badFormat "Invalid response format from Custom API (missing variations)")
            | some vars =>
              match vars.map customLineOfVariation with
              | [] => .error (.badFormat "No variations returned from Custom API")
              | first :: rest =>
                .ok { best_move := if data.best_move = "" then first.move else data.best_move
                      evaluation := first.evaluation
                      depth := data.depth
                      top_lines := first :: rest } }

/-! ## Secondary adapter: chess-api.com (`fetchChessApiCom`) -/

/-- Body of a chess-api.com response. `move = ""` models a falsy
`data.move`; `mate = none` models `null`/`undefined`; `eval`/`depth`/
`continuation` use `none` for an absent field (the code applies `|| 0`,
`|| depth`, `|| []` defaults to them). -/
structure ChessApiData where
  move : String
  mate : Option ℚ
  eval : Option ℚ
  depth : Option ℚ
  continuation : Option (List String)
deriving DecidableEq

/-- `data.eval || 0`. -/
def chessApiEvalOrZero (e : Option ℚ) : ℚ :=
  match e with
  | none => 0
  | some v => v

/-- `data.depth || depth` (a present-but-zero depth is falsy in JS). -/
def chessApiDepthOr (d : Option ℚ) (depth : ℤ) : ℚ :=
  match d with
  | none => (depth : ℚ)
  | some v => if v = 0 then (depth : ℚ) else v

/-- `fetchChessApiCom` (src/services/engineService.ts, lines 100-147):
POST with `Math.min(depth, 30)`, `AbortController` armed at 8000 ms,
single synthesized candidate line. -/
def fetchChessApiCom (fen : String) (depth : ℤ)
    (env : ReqEnv ChessApiData) : AdapterRun :=
  { sentDepth := min depth 30
    timeoutMs := some 8000
    result :=
      match resolveRequest (some 8000) env with
      | .error e => .error e
      | .ok (ok, status, json) =>
        if ok = false then .error (.httpError status)
        else
          match json with
          | none => .error .jsonError
          | some data =>
            if data.move = "" then .error (.badFormat "Invalid response from Chess API")
            else
              let ev : EngineEvaluation :=
                match data.mate with
                | some m => { type := .mate, value := m }
                | none => { type := .cp, value := (jsRound (chessApiEvalOrZero data.eval) : ℚ) }
              .ok { best_move := data.move
                    evaluation := ev
                    depth := some (chessApiDepthOr data.depth depth)
                    top_lines := [{ id := 1, move := data.move, evaluation := ev }]
                    continuation := some ((data.continuation).getD []) } }

/-! ## Tertiary adapter: stockfish.online (`fetchStockfishOnline`) -/

/-- One element of the stockfish.online `lines` array. -/
structure SfLine where
  move : String
  score : ScoreInput
deriving DecidableEq

/-- Body of a stockfish.online `mode=lines` response; `lines = none`
models a missing field or a non-array value. -/
structure SfLinesData where
  lines : Option (List SfLine)
deriving DecidableEq

/-- Body of a stockfish.online `mode=bestmove` response; `data = ""`
models a falsy `data.data`. -/
structure SfSimpleData where
  success : Bool
  data : String
deriving DecidableEq

/-- Environments for the up-to-two GET requests the tertiary adapter
can issue (primary `mode=lines` exchange, fallback `mode=bestmove`). -/
structure SfEnv where
  linesReq : ReqEnv SfLinesData
  simpleReq : ReqEnv SfSimpleData
deriving DecidableEq

/-- The `data.lines.slice(0, multipv).forEach` loop of
`fetchStockfishOnline` (lines 163-169): candidate lines with an empty
sanitized move are skipped; ids come from the slice position. -/
def sfCollectLines (items : List SfLine) : List EngineLine :=
  items.enum.filterMap fun p =>
    let move := cleanMove p.2.move
    if move = "" then none
    else some { id := ((p.1 + 1 : ℕ) : ℚ), move := move, evaluation := parseScoreStandard p.2.score }

/-- `fetchStockfishOnlineSimple` (src/services/engineService.ts, lines
181-195): plain GET, no abort controller, `response.ok` never checked,
synthetic neutral score, sanitized move used without validation. -/
def fetchStockfishOnlineSimple (fen : String) (depth : ℤ)
    (env : ReqEnv SfSimpleData) : AdapterRun :=
  { sentDepth := depth
    timeoutMs := none
    result :=
      match resolveRequest none env with
      | .error e => .error e
      | .ok (_, _, json) =>
        match json with
        | none => .error .jsonError
        | some d =>
          if d.success = false ∨ d.data = "" then
            .error (.badFormat "Stockfish Online Simple failed")
          else
            .ok { best_move := cleanMove d.data
                  evaluation := { type := .cp, value := 0 }
                  depth := some (depth : ℚ)
                  top_lines := [{ id := 1, move := cleanMove d.data
                                  evaluation := { type := .cp, value := 0 } }] } }

/-- `fetchStockfishOnline` (src/services/engineService.ts, lines
150-179): GET with `Math.min(depth, 12)`, no abort controller; falls
back to the `mode=bestmove` request when `lines` is unusable. -/
def fetchStockfishOnline (fen : String) (depth : ℤ) (multipv : ℕ)
    (env : SfEnv) : AdapterRun :=
  { sentDepth := min depth 12
    timeoutMs := none
    result :=
      match resolveRequest none env.linesReq with
      | .error e => .error e
      | .ok (ok, status, json) =>
        if ok = false then .error (.httpError status)
        else
          match json with
          | none => .error .jsonError
          | some data =>
            match data.lines with
            | none => (fetchStockfishOnlineSimple fen (min depth 12) env.simpleReq).result
            | some lines =>
              match sfCollectLines (lines.take multipv) with
              | [] => .error (.badFormat "No lines returned from Stockfish Online")
              | first :: rest =>
                .ok { best_move := first.move
                      evaluation := first.evaluation
                      depth := some ((min depth 12 : ℤ) : ℚ)
                      top_lines := first :: rest } }

/-! ## Fallback orchestrator (`getBestMove`) -/

inductive Provider
  | custom
  | chessApi
  | stockfishOnline
deriving DecidableEq

/-- Environments of the three providers for one `getBestMove` call. -/
structure Env where
  custom : ReqEnv CustomData
  chessApi : ReqEnv ChessApiData
  stockfish : SfEnv
deriving DecidableEq

/-- The observable behaviour of one `getBestMove` call: the providers
invoked in order, the number of `console.warn` failure logs, and the
value returned to (or error surfaced to) the caller. -/
structure OrchestratorRun where
  invoked : List Provider
  warnings : ℕ
  result : Except String EngineResponse

/-- The single terminal error message thrown when every provider failed. -/
def ENGINE_FAILED_MSG : String :=
  "Engine calculation failed. Please check your internet connection."

/-- `getBestMove` (src/services/engineService.ts, lines 12-36): the
try/catch chain over the three adapters in fixed priority order. -/
def getBestMove (fen : String) (depth : ℤ) (multipv : ℕ) (env : Env) :
    OrchestratorRun :=
  match (fetchCustomAPI fen depth multipv env.custom).result with
  | .ok v => { invoked := [.custom], warnings := 0, result := .ok v }
  | .error _ =>
    match (fetchChessApiCom fen depth env.chessApi).result with
    | .ok v => { invoked := [.custom, .chessApi], warnings := 1, result := .ok v }
    | .error _ =>
      match (fetchStockfishOnline fen depth multipv env.stockfish).result with
      | .ok v =>
        { invoked := [.custom, .chessApi, .stockfishOnline], warnings := 2, result := .ok v }
      | .error _ =>
        { invoked := [.custom, .chessApi, .stockfishOnline], warnings := 2,
          result := .error ENGINE_FAILED_MSG }

/-! ## Orchestrator theorems -/

/-- C2: `getBestMove` invokes the adapters in fixed priority order
(custom server, then chess-api.com, then stockfish.online); on the first
adapter that returns successfully it returns that adapter's result
immediately without invoking any subsequent adapter; on an adapter
failure it records the failure (one warning log) and proceeds to the
next adapter. -/
theorem getBestMove_priority_fallback (fen : String) (depth : ℤ) (multipv : ℕ)
    (env : Env) :
    (∀ v, (fetchCustomAPI fen depth multipv env.custom).result = .ok v →
      getBestMove fen depth multipv env = ⟨[.custom], 0, .ok v⟩) ∧
    (∀ e v, (fetchCustomAPI fen depth multipv env.custom).result = .error e →
      (fetchChessApiCom fen depth env.chessApi).result = .ok v →
      getBestMove fen depth multipv env = ⟨[.custom, .chessApi], 1, .ok v⟩) ∧
    (∀ e e' v, (fetchCustomAPI fen depth multipv env.custom).result = .error e →
      (fetchChessApiCom fen depth env.chessApi).result = .error e' →
      (fetchStockfishOnline fen depth multipv env.stockfish).result = .ok v →
      getBestMove fen depth multipv env =
        ⟨[.custom, .chessApi, .stockfishOnline], 2, .ok v⟩) := by
  refine ⟨?_, ?_, ?_⟩
  · intro v h
    simp [getBestMove, h]
  · intro e v h1 h2
    simp [getBestMove, h1, h2]
  · intro e e' v h1 h2 h3
    simp [getBestMove, h1, h2, h3]

/-- C3: `getBestMove` fails iff all three adapters have failed, and the
only error the caller can see is the single terminal message; no
provider-specific error is ever propagated. -/
theorem getBestMove_terminal_error (fen : String) (depth : ℤ) (multipv : ℕ)
    (env : Env) :
    (((getBestMove fen depth multipv env).result = .error ENGINE_FAILED_MSG) ↔
      ((∃ e1, (fetchCustomAPI fen depth multipv env.custom).result = .error e1) ∧
       (∃ e2, (fetchChessApiCom fen depth env.chessApi).result = .error e2) ∧
       (∃ e3, (fetchStockfishOnline fen depth multipv env.stockfish).result = .error e3))) ∧
    (∀ m, (getBestMove fen depth multipv env).result = .error m →
      m = ENGINE_FAILED_MSG) := by
  rcases h1 : (fetchCustomAPI fen depth multipv env.custom).result with e1 | v1 <;>
    rcases h2 : (fetchChessApiCom fen depth env.chessApi).result with e2 | v2 <;>
      rcases h3 : (fetchStockfishOnline fen depth multipv env.stockfish).result with e3 | v3 <;>
        simp [getBestMove, h1, h2, h3]

/-- A custom-server response with one mate-scored variation and no
`best_move` field, used to instantiate the orchestrator theorems. -/
def customOkEnv : ReqEnv CustomData :=
  ⟨0, .response true 200 (some ⟨some [⟨1, "e2e4", some "mate", 3⟩], "", some 15⟩)⟩

/-- An environment in which every provider's request fails at the
network layer. -/
def allFailEnv : Env := ⟨⟨0, .failed⟩, ⟨0, .failed⟩, ⟨⟨0, .failed⟩, ⟨0, .failed⟩⟩⟩

/-- Witness for the C2 theorem: with a succeeding primary provider, only
the primary is invoked and its result is returned. -/
theorem getBestMove_priority_fallback_witness :
    getBestMove "fen" 15 3 ⟨customOkEnv, ⟨0, .failed⟩, ⟨⟨0, .failed⟩, ⟨0, .failed⟩⟩⟩ =
      ⟨[.custom], 0,
        .ok { best_move := "e2e4", evaluation := ⟨.mate, 3⟩, depth := some 15,
              top_lines := [⟨1, "e2e4", ⟨.mate, 3⟩⟩] }⟩ :=
  (getBestMove_priority_fallback "fen" 15 3
      ⟨customOkEnv, ⟨0, .failed⟩, ⟨⟨0, .failed⟩, ⟨0, .failed⟩⟩⟩).1 _ rfl

/-- Witness for the C3 theorem: with all three providers failing,
`getBestMove` surfaces exactly the terminal error message. -/
theorem getBestMove_terminal_error_witness :
    (getBestMove "fen" 15 3 allFailEnv).result = .error ENGINE_FAILED_MSG :=
  (getBestMove_terminal_error "fen" 15 3 allFailEnv).1.mpr
    ⟨⟨.network, rfl⟩, ⟨.network, rfl⟩, ⟨.network, rfl⟩⟩

/-! ## Depth clamping (C5) -/

/-- C5 counterexample: at caller depth 1000000 the primary adapter puts
1000000 into its request body — no clamp at all — while the secondary
and tertiary adapters clamp to their differing ceilings 30 and 12. -/
theorem sentDepth_unclamped_counterexample :
    (fetchCustomAPI "fen" 1000000 3 ⟨0, .failed⟩).sentDepth = 1000000 ∧
    (fetchChessApiCom "fen" 1000000 ⟨0, .failed⟩).sentDepth = 30 ∧
    (fetchStockfishOnline "fen" 1000000 3 ⟨⟨0, .failed⟩, ⟨0, .failed⟩⟩).sentDepth = 12 ∧
    ¬ ((1000000 : ℤ) ≤ 30) ∧ ¬ ((1000000 : ℤ) ≤ 12) := by
  refine ⟨rfl, ?_, ?_, by decide, by decide⟩ <;> decide

/-- C5 (amended): the secondary adapter clamps the requested depth to 30
and the tertiary adapter to 12 (two different ceilings) before the
request is issued, while the primary adapter sends the caller-supplied
depth unmodified; at depth 100 the two clamped requests differ. -/
theorem sentDepth_per_adapter (fen : String) (depth : ℤ) (multipv : ℕ)
    (envC : ReqEnv CustomData) (envA : ReqEnv ChessApiData) (envS : SfEnv) :
    (fetchCustomAPI fen depth multipv envC).sentDepth = depth ∧
    (fetchChessApiCom fen depth envA).sentDepth = min depth 30 ∧
    (fetchStockfishOnline fen depth multipv envS).sentDepth = min depth 12 ∧
    (fetchChessApiCom fen 100 envA).sentDepth ≠
      (fetchStockfishOnline fen 100 multipv envS).sentDepth := by
  refine ⟨rfl, rfl, rfl, ?_⟩
  show min (100 : ℤ) 30 ≠ min (100 : ℤ) 12
  decide

/-! ## Timeout / cancellation discipline (C4) -/

/-- C4 counterexample: the tertiary adapter arms no cancellation signal;
with a provider latency of 1000000000 ms it still waits and returns the
provider's (late) answer successfully instead of aborting the attempt. -/
theorem timeout_missing_counterexample :
    (fetchStockfishOnline "fen" 15 3
        ⟨⟨1000000000, .response true 200 (some ⟨some [⟨"e2e4", .str "mate 2"⟩]⟩)⟩,
         ⟨0, .failed⟩⟩).timeoutMs = none ∧
    (fetchStockfishOnline "fen" 15 3
        ⟨⟨1000000000, .response true 200 (some ⟨some [⟨"e2e4", .str "mate 2"⟩]⟩)⟩,
         ⟨0, .failed⟩⟩).result =
      .ok { best_move := "e2e4", evaluation := ⟨.mate, 2⟩, depth := some 12,
            top_lines := [⟨1, "e2e4", ⟨.mate, 2⟩⟩] } := by
  constructor
  · rfl
  · rfl

/-- C4 (amended): the primary and secondary adapters arm an 8000 ms
abort signal and any attempt whose provider latency exceeds it fails
with an abort error (so the orchestrator advances) without waiting for
the late response; the tertiary adapter and its best-move-only fallback
arm no cancellation signal at all. -/
theorem timeout_abort_discipline (fen : String) (depth : ℤ) (multipv : ℕ)
    (envC : ReqEnv CustomData) (envA : ReqEnv ChessApiData) (envS : SfEnv) :
    (fetchCustomAPI fen depth multipv envC).timeoutMs = some 8000 ∧
    (fetchChessApiCom fen depth envA).timeoutMs = some 8000 ∧
    (8000 < envC.latencyMs →
      (fetchCustomAPI fen depth multipv envC).result = .error .aborted) ∧
    (8000 < envA.latencyMs →
      (fetchChessApiCom fen depth envA).result = .error .aborted) ∧
    (fetchStockfishOnline fen depth multipv envS).timeoutMs = none ∧
    (fetchStockfishOnlineSimple fen depth envS.simpleReq).timeoutMs = none := by
  refine ⟨rfl, rfl, ?_, ?_, rfl, rfl⟩
  · intro h
    simp [fetchCustomAPI, resolveRequest, h]
  · intro h
    simp [fetchChessApiCom, resolveRequest, h]

/-- Witness for the C4 theorem at a concrete 9000 ms latency. -/
theorem timeout_abort_discipline_witness :
    (fetchCustomAPI "fen" 15 3 ⟨9000, .failed⟩).result = .error .aborted ∧
    (fetchChessApiCom "fen" 15 ⟨9000, .failed⟩).result = .error .aborted :=
  ⟨(timeout_abort_discipline "fen" 15 3 ⟨9000, .failed⟩ ⟨9000, .failed⟩
      ⟨⟨0, .failed⟩, ⟨0, .failed⟩⟩).2.2.1 (by decide),
   (timeout_abort_discipline "fen" 15 3 ⟨9000, .failed⟩ ⟨9000, .failed⟩
      ⟨⟨0, .failed⟩, ⟨0, .failed⟩⟩).2.2.2.1 (by decide)⟩

/-! ## Shape of successful adapter results (C1, C10) -/

/-- A successful best-move-only fallback result always carries the
synthetic neutral score and one line built from its own best move. -/
lemma fetchStockfishOnlineSimple_ok_shape (fen : String) (depth : ℤ)
    (env : ReqEnv SfSimpleData) (r : EngineResponse)
    (h : (fetchStockfishOnlineSimple fen depth env).result = .ok r) :
    r.evaluation = ⟨.cp, 0⟩ ∧
    r.top_lines = [⟨1, r.best_move, ⟨.cp, 0⟩⟩] := by
  simp only [fetchStockfishOnlineSimple] at h
  split at h
  · simp at h
  · split at h
    · simp at h
    · split at h
      · simp at h
      · simp only [Except.ok.injEq] at h
        subst h
        exact ⟨rfl, rfl⟩

/-- A successful primary-adapter result takes its evaluation from its
first candidate line. -/
lemma fetchCustomAPI_ok_shape (fen : String) (depth : ℤ) (multipv : ℕ)
    (env : ReqEnv CustomData) (r : EngineResponse)
    (h : (fetchCustomAPI fen depth multipv env).result = .ok r) :
    ∃ l rest, r.top_lines = l :: rest ∧ r.evaluation = l.evaluation := by
  simp only [fetchCustomAPI] at h
  split at h
  · simp at h
  · split at h
    · simp at h
    · split at h
      · simp at h
      · split at h
        · simp at h
        · split at h
          · simp at h
          · simp only [Except.ok.injEq] at h
            subst h
            exact ⟨_, _, rfl, rfl⟩

/-- The primary adapter's best move: the first line's move when the
provider's `best_move` field is falsy, otherwise that field verbatim. -/
lemma fetchCustomAPI_ok_bestMove (fen : String) (depth : ℤ) (multipv : ℕ)
    (lat : ℕ) (ok : Bool) (st : ℕ) (data : CustomData) (r : EngineResponse)
    (h : (fetchCustomAPI fen depth multipv ⟨lat, .response ok st (some data)⟩).result = .ok r) :
    ∃ l rest, r.top_lines = l :: rest ∧
      r.best_move = (if data.best_move = "" then l.move else data.best_move) := by
  simp only [fetchCustomAPI] at h
  split at h
  · simp at h
  · rename_i p heq
    split at h
    · simp at h
    · split at h
      · simp at h
      · split at h
        · simp at h
        · split at h
          · simp at h
          · simp only [resolveRequest, resolveBody] at heq
            split at heq
            · simp at heq
            · simp only [Except.ok.injEq, Prod.mk.injEq, Option.some.injEq] at heq
              obtain ⟨rfl, rfl, rfl⟩ := heq
              injection h with h
              subst h
              exact ⟨_, _, rfl, rfl⟩

/-- A successful secondary-adapter result is a single synthesized line
agreeing with the top-level best move and evaluation. -/
lemma fetchChessApiCom_ok_shape (fen : String) (depth : ℤ)
    (env : ReqEnv ChessApiData) (r : EngineResponse)
    (h : (fetchChessApiCom fen depth env).result = .ok r) :
    r.top_lines = [⟨1, r.best_move, r.evaluation⟩] := by
  simp only [fetchChessApiCom] at h
  split at h
  · simp at h
  · split at h
    · simp at h
    · split at h
      · simp at h
      · split at h
        · simp at h
        · simp only [Except.ok.injEq] at h
          subst h
          rfl

/-- A successful tertiary-adapter result takes best move and evaluation
from its first candidate line (in both of its modes). -/
lemma fetchStockfishOnline_ok_shape (fen : String) (depth : ℤ) (multipv : ℕ)
    (env : SfEnv) (r : EngineResponse)
    (h : (fetchStockfishOnline fen depth multipv env).result = .ok r) :
    ∃ l rest, r.top_lines = l :: rest ∧ r.evaluation = l.evaluation ∧
      r.best_move = l.move := by
  simp only [fetchStockfishOnline] at h
  split at h
  · simp at h
  · split at h
    · simp at h
    · split at h
      · simp at h
      · split at h
        · obtain ⟨hev, hl⟩ := fetchStockfishOnlineSimple_ok_shape _ _ _ _ h
          exact ⟨⟨1, r.best_move, ⟨.cp, 0⟩⟩, [], hl, hev, rfl⟩
        · split at h
          · simp at h
          · simp only [Except.ok.injEq] at h
            subst h
            exact ⟨_, _, rfl, rfl, rfl⟩

/-- C1 counterexample: the custom server reports `best_move = "a1a2"`
together with a first variation whose move is `"e2e4"`; the primary
adapter trusts the reported field, so the successful result has
`best_move ≠ top_lines[0].move`. -/
theorem bestMove_head_mismatch_counterexample :
    (fetchCustomAPI "fen" 15 3
        ⟨0, .response true 200
          (some ⟨some [⟨1, "e2e4", some "mate", 3⟩], "a1a2", some 15⟩)⟩).result =
      .ok { best_move := "a1a2", evaluation := ⟨.mate, 3⟩, depth := some 15,
            top_lines := [⟨1, "e2e4", ⟨.mate, 3⟩⟩] } ∧
    ("a1a2" : String) ≠ "e2e4" := ⟨rfl, by decide⟩

/-- C1 (amended): every successful adapter result (and every successful
`getBestMove` result) has a non-empty `top_lines` whose first line
carries the top-level evaluation; `best_move` equals `top_lines[0].move`
for the secondary and tertiary adapters, while the primary adapter uses
the first line's move only when the provider's `best_move` field is
falsy and otherwise returns that field verbatim. -/
theorem result_line_invariants (fen : String) (depth : ℤ) (multipv : ℕ) (env : Env)
    (lat : ℕ) (ok : Bool) (st : ℕ) (data : CustomData) :
    (∀ r, (fetchCustomAPI fen depth multipv env.custom).result = .ok r →
      ∃ l rest, r.top_lines = l :: rest ∧ r.evaluation = l.evaluation) ∧
    (∀ r, (fetchCustomAPI fen depth multipv ⟨lat, .response ok st (some data)⟩).result = .ok r →
      ∃ l rest, r.top_lines = l :: rest ∧
        r.best_move = (if data.best_move = "" then l.move else data.best_move)) ∧
    (∀ r, (fetchChessApiCom fen depth env.chessApi).result = .ok r →
      r.top_lines = [⟨1, r.best_move, r.evaluation⟩]) ∧
    (∀ r, (fetchStockfishOnline fen depth multipv env.stockfish).result = .ok r →
      ∃ l rest, r.top_lines = l :: rest ∧ r.evaluation = l.evaluation ∧
        r.best_move = l.move) ∧
    (∀ r, (getBestMove fen depth multipv env).result = .ok r →
      ∃ l rest, r.top_lines = l :: rest ∧ r.evaluation = l.evaluation) := by
  refine ⟨fun r h => fetchCustomAPI_ok_shape _ _ _ _ _ h,
    fun r h => fetchCustomAPI_ok_bestMove _ _ _ _ _ _ _ _ h,
    fun r h => fetchChessApiCom_ok_shape _ _ _ _ h,
    fun r h => fetchStockfishOnline_ok_shape _ _ _ _ _ h, ?_⟩
  intro r h
  rcases h1 : (fetchCustomAPI fen depth multipv env.custom).result with e1 | v1
  · rcases h2 : (fetchChessApiCom fen depth env.chessApi).result with e2 | v2
    · rcases h3 : (fetchStockfishOnline fen depth multipv env.stockfish).result with e3 | v3
      · simp [getBestMove, h1, h2, h3] at h
      · simp [getBestMove, h1, h2, h3] at h
        subst h
        obtain ⟨l, rest, hl, he, _⟩ := fetchStockfishOnline_ok_shape _ _ _ _ _ h3
        exact ⟨l, rest, hl, he⟩
    · simp [getBestMove, h1, h2] at h
      subst h
      exact ⟨⟨1, v2.best_move, v2.evaluation⟩, [],
        fetchChessApiCom_ok_shape _ _ _ _ h2, rfl⟩
  · simp [getBestMove, h1] at h
    subst h
    exact fetchCustomAPI_ok_shape _ _ _ _ _ h1

/-- An environment in which only the secondary provider answers, with a
mate-in-2 evaluation. -/
def chessApiOkEnv : Env :=
  ⟨⟨0, .failed⟩,
   ⟨0, .response true 200 (some ⟨"e2e4", some 2, none, some 15, none⟩)⟩,
   ⟨⟨0, .failed⟩, ⟨0, .failed⟩⟩⟩

/-- Witness for the C1 theorem, instantiating the secondary-adapter
conjunct on a concrete mate response. -/
theorem result_line_invariants_witness :
    ({ best_move := "e2e4", evaluation := ⟨.mate, 2⟩, depth := some 15,
       top_lines := [⟨1, "e2e4", ⟨.mate, 2⟩⟩],
       continuation := some [] } : EngineResponse).top_lines =
      [⟨1, ({ best_move := "e2e4", evaluation := ⟨.mate, 2⟩, depth := some 15,
              top_lines := [⟨1, "e2e4", ⟨.mate, 2⟩⟩],
              continuation := some [] } : EngineResponse).best_move,
          ({ best_move := "e2e4", evaluation := ⟨.mate, 2⟩, depth := some 15,
             top_lines := [⟨1, "e2e4", ⟨.mate, 2⟩⟩],
             continuation := some [] } : EngineResponse).evaluation⟩] :=
  (result_line_invariants "fen" 15 3 chessApiOkEnv 0 true 200
    ⟨none, "", none⟩).2.2.1 _ rfl

/-- C10: in the tertiary provider's best-move-only fallback mode, every
response with truthy `success` and `data` fields yields a successful
single-line result with the synthetic neutral score, the sanitized move
being used unvalidated — concretely, the truthy body `" "` sanitizes to
the empty move yet still produces a successful result with
`best_move = ""` instead of failing or being skipped. -/
theorem simple_mode_neutral_unvalidated (fen : String) (depth : ℤ)
    (lat : ℕ) (ok : Bool) (st : ℕ) (d : SfSimpleData) :
    (d.success = true → d.data ≠ "" →
      (fetchStockfishOnlineSimple fen depth ⟨lat, .response ok st (some d)⟩).result =
        .ok { best_move := cleanMove d.data, evaluation := ⟨.cp, 0⟩,
              depth := some (depth : ℚ),
              top_lines := [⟨1, cleanMove d.data, ⟨.cp, 0⟩⟩] }) ∧
    (fetchStockfishOnlineSimple "fen" 12 ⟨0, .response true 200 (some ⟨true, " "⟩)⟩).result =
      .ok { best_move := "", evaluation := ⟨.cp, 0⟩, depth := some 12,
            top_lines := [⟨1, "", ⟨.cp, 0⟩⟩] } := by
  constructor
  · intro h1 h2
    simp [fetchStockfishOnlineSimple, resolveRequest, resolveBody, h1, h2]
  · rfl

/-- Witness for the C10 theorem on a concrete truthy body. -/
theorem simple_mode_neutral_unvalidated_witness :
    (fetchStockfishOnlineSimple "fen" 12
        ⟨0, .response true 200 (some ⟨true, "bestmove e2e4 ponder e7e5"⟩)⟩).result =
      .ok { best_move := cleanMove "bestmove e2e4 ponder e7e5",
            evaluation := ⟨.cp, 0⟩, depth := some ((12 : ℤ) : ℚ),
            top_lines := [⟨1, cleanMove "bestmove e2e4 ponder e7e5", ⟨.cp, 0⟩⟩] } :=
  (simple_mode_neutral_unvalidated "fen" 12 0 true 200
    ⟨true, "bestmove e2e4 ponder e7e5"⟩).1 rfl (by decide)

/-! ## Character and list facts used by the parser proofs -/

lemma jsIsDigit_bounds {c : Char} (h : jsIsDigit c = true) :
    48 ≤ c.toNat ∧ c.toNat ≤ 57 := by
  simpa [jsIsDigit] using h

lemma jsIsDigit_ne_minus {c : Char} (h : jsIsDigit c = true) : c ≠ '-' := by
  intro hc
  subst hc
  exact absurd h (by decide)

lemma jsIsDigit_ne_plus {c : Char} (h : jsIsDigit c = true) : c ≠ '+' := by
  intro hc
  subst hc
  exact absurd h (by decide)

lemma jsIsDigit_not_ws {c : Char} (h : jsIsDigit c = true) :
    jsIsWhitespace c = false := by
  obtain ⟨h1, h2⟩ := jsIsDigit_bounds h
  simp only [jsIsWhitespace, Bool.or_eq_false_iff, beq_eq_false_iff_ne]
  refine ⟨⟨⟨⟨⟨?_, ?_⟩, ?_⟩, ?_⟩, ?_⟩, ?_⟩ <;>
    (intro hc; subst hc; revert h1 h2; decide)

lemma dropWhile_eq_self {p : Char → Bool} {l : List Char}
    (h : ∀ c ∈ l, p c = false) : l.dropWhile p = l := by
  cases l with
  | nil => rfl
  | cons c tl => simp [List.dropWhile_cons, h c (by simp)]

lemma isPrefixOf_append (l t : List Char) : l.isPrefixOf (l ++ t) = true := by
  induction l with
  | nil => simp [List.isPrefixOf]
  | cons c cs ih => simp [List.isPrefixOf, ih]

lemma isPrefixOf_exists {l t : List Char} (h : l.isPrefixOf t = true) :
    ∃ r, t = l ++ r := by
  induction l generalizing t with
  | nil => exact ⟨t, rfl⟩
  | cons c cs ih =>
    cases t with
    | nil => simp [List.isPrefixOf] at h
    | cons b bs =>
      simp only [List.isPrefixOf, Bool.and_eq_true, beq_iff_eq] at h
      obtain ⟨rfl, h⟩ := h
      obtain ⟨r, rfl⟩ := ih h
      exact ⟨r, rfl⟩

lemma containsSub_append_self (pat t : List Char) (h : pat ≠ []) :
    containsSub (pat ++ t) pat = true := by
  cases pat with
  | nil => exact absurd rfl h
  | cons c cs => simp [containsSub, isPrefixOf_append]

lemma replaceFirstAux_prefix (pat rep t : List Char) (h : pat ≠ []) :
    replaceFirstAux pat rep (pat ++ t) = rep ++ t := by
  cases pat with
  | nil => exact absurd rfl h
  | cons c cs =>
    have hd : ((c :: cs) ++ t).drop (c :: cs).length = t := by
      simpa using List.drop_left cs t
    simp [replaceFirstAux, isPrefixOf_append, hd]

/-! ## Pawn-to-centipawn conversion (C6) -/

/-- C6: for every variation whose score the custom server reports in
decimal pawns (any non-mate score type), normalization produces a
centipawn evaluation whose value is `round(p * 100)`. -/
theorem pawns_to_centipawns (v : Variation) (h : v.score_type ≠ some "mate") :
    (customLineOfVariation v).evaluation =
      { type := .cp, value := ((round (v.score * 100) : ℤ) : ℚ) } := by
  simp [customLineOfVariation, h, jsRound, round_eq]

/-- Witness for the C6 theorem at the pawn score 3/10. -/
theorem pawns_to_centipawns_witness :
    (customLineOfVariation ⟨1, "e2e4", none, 3 / 10⟩).evaluation =
      { type := .cp, value := ((round (((3 : ℚ) / 10) * 100) : ℤ) : ℚ) } :=
  pawns_to_centipawns ⟨1, "e2e4", none, 3 / 10⟩ (by decide)

/-! ## Mate-string normalization (C7) -/

lemma data_mk (l : List Char) : (String.mk l).data = l := rfl

/-- `parseInt` on an optionally-signed non-empty run of decimal digits
returns exactly the signed decimal value of the digits. -/
lemma jsParseInt_signed_digits (ds : List Char) (neg : Bool) (hne : ds ≠ [])
    (hds : ∀ c ∈ ds, jsIsDigit c = true) :
    jsParseInt ⟨if neg then '-' :: ds else ds⟩ =
      some (if neg then -(digitsToNat ds : ℤ) else (digitsToNat ds : ℤ)) := by
  have htake : ds.takeWhile jsIsDigit = ds :=
    List.takeWhile_eq_self_iff.mpr (by simpa using hds)
  have hcore : parseIntCore ds = some (digitsToNat ds : ℤ) := by
    have hempty : ds.isEmpty = false := by
      cases ds with
      | nil => exact absurd rfl hne
      | cons c cs => rfl
    simp [parseIntCore, htake, hempty]
  cases neg with
  | false =>
    cases ds with
    | nil => exact absurd rfl hne
    | cons c cs =>
      have hc := hds c (by simp)
      have hdw : (c :: cs).dropWhile jsIsWhitespace = c :: cs :=
        dropWhile_eq_self fun x hx => jsIsDigit_not_ws (hds x hx)
      simp only [if_neg, Bool.false_eq_true, ite_false]
      simp only [jsParseInt, data_mk, hdw]
      rw [if_neg (jsIsDigit_ne_minus hc), if_neg (jsIsDigit_ne_plus hc)]
      exact hcore
  | true =>
    have hdw : ('-' :: ds).dropWhile jsIsWhitespace = '-' :: ds := by
      apply dropWhile_eq_self
      intro x hx
      rcases List.mem_cons.mp hx with rfl | hx
      · decide
      · exact jsIsDigit_not_ws (hds x hx)
    simp only [ite_true]
    simp only [jsParseInt, data_mk, hdw]
    simp [hcore]

/-- C7: every score string whose lowercase form is the marker `mate`
followed by a space and an optionally-signed non-empty run of decimal
digits normalizes to a mate evaluation whose value is exactly that
signed integer distance, for either sign. -/
theorem mate_string_normalization (s : String) (ds : List Char) (neg : Bool)
    (hlow : s.data.map Char.toLower = "mate ".data ++ (if neg then '-' :: ds else ds))
    (hne : ds ≠ []) (hds : ∀ c ∈ ds, jsIsDigit c = true) :
    parseScoreStandard (.str s) =
      { type := .mate,
        value := ((if neg then -(digitsToNat ds : ℤ) else (digitsToNat ds : ℤ)) : ℚ) } := by
  have hnonws : ∀ c ∈ (if neg then '-' :: ds else ds), jsIsWhitespace c = false := by
    intro c hc
    cases neg with
    | true =>
      rcases List.mem_cons.mp hc with rfl | hc
      · decide
      · exact jsIsDigit_not_ws (hds c hc)
    | false => exact jsIsDigit_not_ws (hds c hc)
  have hlower : jsToLower s = ⟨"mate ".data ++ (if neg then '-' :: ds else ds)⟩ :=
    congrArg String.mk hlow
  have hinc : jsIncludes ⟨"mate ".data ++ (if neg then '-' :: ds else ds)⟩ "mate" = true :=
    containsSub_append_self "mate".data (' ' :: (if neg then '-' :: ds else ds)) (by decide)
  have hrep : jsReplaceFirst ⟨"mate ".data ++ (if neg then '-' :: ds else ds)⟩ "mate" "" =
      ⟨' ' :: (if neg then '-' :: ds else ds)⟩ := by
    have h := replaceFirstAux_prefix "mate".data []
      (' ' :: (if neg then '-' :: ds else ds)) (by decide)
    exact congrArg String.mk h
  have htrim : jsTrim ⟨' ' :: (if neg then '-' :: ds else ds)⟩ =
      ⟨if neg then '-' :: ds else ds⟩ := by
    have hsp : jsIsWhitespace ' ' = true := rfl
    have h1 : (' ' :: (if neg then '-' :: ds else ds)).dropWhile jsIsWhitespace =
        if neg then '-' :: ds else ds := by
      rw [List.dropWhile_cons, if_pos hsp]
      exact dropWhile_eq_self hnonws
    have h2 : (if neg then '-' :: ds else ds).reverse.dropWhile jsIsWhitespace =
        (if neg then '-' :: ds else ds).reverse :=
      dropWhile_eq_self fun c hc => hnonws c (List.mem_reverse.mp hc)
    apply congrArg String.mk
    show (((' ' :: _).dropWhile jsIsWhitespace).reverse.dropWhile jsIsWhitespace).reverse = _
    rw [h1, h2, List.reverse_reverse]
  have hparse := jsParseInt_signed_digits ds neg hne hds
  simp only [parseScoreStandard, hlower, hinc, if_true, hrep, htrim, hparse]
  cases neg <;> simp

/-- Witness for the C7 theorem at the concrete string `"Mate -3"`. -/
theorem mate_string_normalization_witness :
    parseScoreStandard (.str "Mate -3") =
      { type := .mate, value := ((-(digitsToNat ['3'] : ℤ) : ℤ) : ℚ) } := by
  have h := mate_string_normalization "Mate -3" ['3'] true (by decide) (by decide)
    (by decide)
  simpa using h

/-! ## Malformed score handling (C8) -/

/-- C8 counterexample: a `mate`-marked string whose distance fails to
parse normalizes to the mate evaluation `{mate, 0}`, not to the neutral
centipawn evaluation `{cp, 0}` the specification claims. -/
theorem malformed_mate_not_cp_counterexample :
    parseScoreStandard (.str "mate xyz") = ⟨.mate, 0⟩ ∧
    (⟨.mate, 0⟩ : EngineEvaluation) ≠ ⟨.cp, 0⟩ := by
  constructor
  · decide
  · decide

/-- C8 (amended): score normalization is total over malformed input and
never raises, but the neutral value it repairs to keeps the marker's
type: a `mate`-marked string whose numeric part fails to parse yields
`{mate, 0}`, while a `cp`-marked or unmarked string whose numeric part
fails to parse — and any input of unexpected type — yields `{cp, 0}`. -/
theorem malformed_score_neutral (s : String) :
    (jsIncludes (jsToLower s) "mate" = true →
      jsParseInt (jsTrim (jsReplaceFirst (jsToLower s) "mate" "")) = none →
      parseScoreStandard (.str s) = ⟨.mate, 0⟩) ∧
    (jsIncludes (jsToLower s) "mate" = false →
      jsIncludes (jsToLower s) "cp" = true →
      jsParseFloat (jsTrim (jsReplaceFirst (jsToLower s) "cp" "")) = none →
      parseScoreStandard (.str s) = ⟨.cp, 0⟩) ∧
    (jsIncludes (jsToLower s) "mate" = false →
      jsIncludes (jsToLower s) "cp" = false →
      jsParseFloat s = none →
      parseScoreStandard (.str s) = ⟨.cp, 0⟩) ∧
    (parseScoreStandard .other = ⟨.cp, 0⟩) := by
  refine ⟨?_, ?_, ?_, rfl⟩
  · intro h1 h2
    simp [parseScoreStandard, h1, h2]
  · intro h1 h2 h3
    simp [parseScoreStandard, h1, h2, h3]
  · intro h1 h2 h3
    simp [parseScoreStandard, h1, h2, h3]

/-- Witness for the C8 theorem on a malformed `cp`-marked string. -/
theorem malformed_score_neutral_witness :
    parseScoreStandard (.str "cp abc") = ⟨.cp, 0⟩ :=
  (malformed_score_neutral "cp abc").2.1 (by decide) (by decide) (by decide)

/-! ## Move sanitization (C9) -/

lemma jsSplitChar_ne_nil (sep : Char) (l : List Char) : jsSplitChar sep l ≠ [] := by
  cases l with
  | nil => simp [jsSplitChar]
  | cons c tl =>
    simp only [jsSplitChar]
    split
    · simp
    · split <;> simp

/-- `split(sep)[0]` is the maximal separator-free prefix. -/
lemma jsSplitChar_headD (sep : Char) (l : List Char) :
    (jsSplitChar sep l).headD [] = l.takeWhile (fun c => c ≠ sep) := by
  induction l with
  | nil => rfl
  | cons c tl ih =>
    simp only [jsSplitChar, List.takeWhile_cons]
    by_cases hc : c = sep
    · simp [hc]
    · rw [if_neg hc, if_pos (by simpa using hc)]
      rcases hsp : jsSplitChar sep tl with _ | ⟨h, t⟩
      · exact absurd hsp (jsSplitChar_ne_nil sep tl)
      · rw [hsp] at ih
        simpa using ih

/-- C9 counterexample: a raw move whose tokens are separated by a tab is
returned whole by `cleanMove` (the code splits on the space character
only), not cut at the first whitespace as the specification claims. -/
theorem cleanMove_whitespace_counterexample :
    cleanMove "a1b2\tc3d4" = "a1b2\tc3d4" ∧
    specCleanMoveWhitespaceTok "a1b2\tc3d4" = "a1b2" ∧
    ("a1b2\tc3d4" : String) ≠ "a1b2" := by
  refine ⟨?_, ?_, ?_⟩ <;> decide

/-- C9 (amended): `cleanMove` trims surrounding whitespace, strips a
leading `bestmove ` label, and returns the first space-delimited token
(the space character only is a delimiter; other whitespace inside the
trimmed string is kept); empty input yields the empty string. -/
theorem cleanMove_first_space_token (s : String) :
    cleanMove s = specCleanMoveSpaceTok s ∧ cleanMove "" = "" := by
  refine ⟨?_, rfl⟩
  by_cases hs : s = ""
  · subst hs
    rfl
  · simp only [cleanMove, specCleanMoveSpaceTok, if_neg hs]
    by_cases hpre : "bestmove ".data.isPrefixOf (jsTrim s).data = true
    · obtain ⟨r, hr⟩ := isPrefixOf_exists hpre
      simp only [hpre, if_true]
      have hrep : jsReplaceFirst (jsTrim s) "bestmove " "" = ⟨r⟩ := by
        have h := replaceFirstAux_prefix "bestmove ".data [] r (by decide)
        unfold jsReplaceFirst
        rw [hr]
        exact congrArg String.mk h
      have hdrop : (jsTrim s).data.drop 9 = r := by
        rw [hr]
        simpa using List.drop_left "bestmove ".data r
      rw [hrep, hdrop]
      exact congrArg String.mk (jsSplitChar_headD ' ' (jsTrim ⟨r⟩).data)
    · simp only [Bool.not_eq_true] at hpre
      simp only [hpre, Bool.false_eq_true, if_false]
      exact congrArg String.mk (jsSplitChar_headD ' ' (jsTrim s).data)

end EngineService
